import Mathlib

/-!
Shallow embedding of the expenses ledger script (src/google-apps-script.js).

The script is a Google Apps Script backend storing multi-currency
transactions in one spreadsheet sheet per calendar month.  The backing
spreadsheet is an external store; following the data model of the script,
a sheet is modelled as its name, its budget cell (I12) and its list of
data rows (sheet rows 3, 4, ...).  The header row, the totals row and the
summary block hold formulas over the data rows; they are modelled as the
derived functions totalVND/totalEUR/totalUSD/catAmount/catPctVal and
budgetPercentCell, recomputed on every read exactly as live formulas are.

JavaScript numbers are modelled as rationals, NaN as Option.none where it
can arise.  Generic date parsing (new Date(string) on a string that does
not match the dd/mm/yyyy pattern) is a host-engine facility and is passed
in as an oracle parameter gp; the dd/mm/yyyy pattern match itself and the
calendar arithmetic of the numeric Date constructor are implemented below.
Local time is identified with UTC.  Exception messages are abbreviated;
only their status matters to callers.
-/

namespace Expenses

/-- JavaScript values as they arrive from spreadsheet cells or request
parameters: strings, numbers (modelled as rationals), or undefined. -/
inductive JSVal where
  | str (s : String)
  | num (q : ℚ)
  | undef
deriving DecidableEq, Repr

/-- JavaScript Math.round: round half toward positive infinity. -/
def jsRound (q : ℚ) : ℤ := ⌊q + 1 / 2⌋

/-- Decimal digit test, as the regex class backslash-d (ASCII 0-9). -/
def isDigitCh (c : Char) : Bool := c.isDigit

/-- Numeric value of a decimal digit character. -/
def digitVal (c : Char) : ℤ := ((c.toNat - '0'.toNat : ℕ) : ℤ)

/-- JavaScript whitespace as matched by the regex class backslash-s and
skipped by parseInt (ASCII whitespace, NBSP, BOM). -/
def isJsWs (c : Char) : Bool :=
  c = ' ' ∨ c = '\t' ∨ c = '\n' ∨ c = '\r' ∨ c.toNat = 11 ∨ c.toNat = 12 ∨
    c.toNat = 160 ∨ c.toNat = 65279

/-- Accumulate a maximal run of decimal digits (for parseInt). -/
def decDigitsAcc : List Char → ℤ → ℤ
  | [], acc => acc
  | c :: l, acc => if isDigitCh c then decDigitsAcc l (acc * 10 + digitVal c) else acc

/-- Whether the list starts with a decimal digit. -/
def hasLeadingDigit : List Char → Bool
  | [] => false
  | c :: _ => isDigitCh c

/-- Hexadecimal digit test (for the 0x form of parseInt). -/
def isHexDigit (c : Char) : Bool :=
  isDigitCh c ∨ ('a' ≤ c ∧ c ≤ 'f') ∨ ('A' ≤ c ∧ c ≤ 'F')

/-- Numeric value of a hexadecimal digit character. -/
def hexDigitVal (c : Char) : ℤ :=
  if isDigitCh c then digitVal c
  else if 'a' ≤ c ∧ c ≤ 'f' then ((c.toNat - 'a'.toNat + 10 : ℕ) : ℤ)
  else ((c.toNat - 'A'.toNat + 10 : ℕ) : ℤ)

/-- Accumulate a maximal run of hexadecimal digits. -/
def hexDigitsAcc : List Char → ℤ → ℤ
  | [], acc => acc
  | c :: l, acc => if isHexDigit c then hexDigitsAcc l (acc * 16 + hexDigitVal c) else acc

/-- Whether the list starts with a hexadecimal digit. -/
def hasLeadingHex : List Char → Bool
  | [] => false
  | c :: _ => isHexDigit c

/-- JavaScript parseInt on a string, default radix: skip leading
whitespace, optional sign, then either a 0x/0X hexadecimal literal or a
maximal decimal digit run; NaN (none) when no digit follows. -/
def jsParseInt (s : String) : Option ℤ :=
  let l := s.toList.dropWhile isJsWs
  let sl : ℤ × List Char :=
    match l with
    | '-' :: t => (-1, t)
    | '+' :: t => (1, t)
    | t => (1, t)
  match sl.2 with
  | '0' :: 'x' :: t =>
      if hasLeadingHex t then some (sl.1 * hexDigitsAcc t 0) else none
  | '0' :: 'X' :: t =>
      if hasLeadingHex t then some (sl.1 * hexDigitsAcc t 0) else none
  | t => if hasLeadingDigit t then some (sl.1 * decDigitsAcc t 0) else none

/-- String.includes for a single character. -/
def strContains (s : String) (c : Char) : Bool := s.toList.contains c

/-- Remove the first occurrence of a character (String.replace of a
one-character pattern by the empty string). -/
def removeFirst (c : Char) : List Char → List Char
  | [] => []
  | x :: l => if x = c then l else x :: removeFirst c l

/-- The percent sign stripped once, as p.replace of the percent sign. -/
def stripPctOnce (s : String) : String := ⟨removeFirst '%' s.toList⟩

/-- parsePct from the source: a string containing a percent sign is
stripped of it and parsed as an integer; a number with absolute value
under 10 and nonzero is multiplied by 100 and rounded; any other number
is rounded; anything else yields 0.  none models a NaN result of
parseInt on a digitless stripped string. -/
def parsePct (p : JSVal) : Option ℤ :=
  match p with
  | .str s => if strContains s '%' then jsParseInt (stripPctOnce s) else some 0
  | .num q => if |q| < 10 ∧ q ≠ 0 then some (jsRound (q * 100)) else some (jsRound q)
  | .undef => some 0

/-! ## Calendar arithmetic of the numeric Date constructor -/

/-- Days from civil date (proleptic Gregorian), days since 1970-01-01. -/
def daysFromCivil (y m d : ℤ) : ℤ :=
  let y1 := y - (if m ≤ 2 then 1 else 0)
  let era := y1 / 400
  let yoe := y1 - era * 400
  let doy := (153 * (m + (if 2 < m then -3 else 9)) + 2) / 5 + d - 1
  let doe := yoe * 365 + yoe / 4 - yoe / 100 + doy
  era * 146097 + doe - 719468

/-- Civil date (year, month 1-12, day) from days since 1970-01-01. -/
def civilFromDays (z0 : ℤ) : ℤ × ℤ × ℤ :=
  let z := z0 + 719468
  let era := z / 146097
  let doe := z - era * 146097
  let yoe := (doe - doe / 1460 + doe / 36524 - doe / 146096) / 365
  let y := yoe + era * 400
  let doy := doe - (365 * yoe + yoe / 4 - yoe / 100)
  let mp := (5 * doy + 2) / 153
  let d := doy - (153 * mp + 2) / 5 + 1
  let m := mp + (if mp < 10 then 3 else -9)
  (y + (if m ≤ 2 then 1 else 0), m, d)

/-- A valid JavaScript Date value, normalized: civil year, month (1-12),
day, and time of day.  Only valid dates are represented; an invalid date
is Option.none wherever it can arise. -/
structure JSDate where
  year : ℤ
  month : ℤ
  day : ℤ
  hour : ℤ
  minute : ℤ
  second : ℤ
deriving DecidableEq, Repr

/-- new Date(year, monthIndex, day, hours, minutes, seconds): months,
days and time overflow roll over; years 0-99 map to 1900-1999. -/
def jsDate6 (y monthIndex d hh mi ss : ℤ) : JSDate :=
  let y0 := if 0 ≤ y ∧ y ≤ 99 then y + 1900 else y
  let ym := y0 + monthIndex / 12
  let mn := monthIndex % 12
  let t := ss + 60 * mi + 3600 * hh
  let extraDays := t / 86400
  let secs := t % 86400
  let days := daysFromCivil ym (mn + 1) 1 + (d - 1) + extraDays
  let c := civilFromDays days
  ⟨c.1, c.2.1, c.2.2, secs / 3600, secs % 3600 / 60, secs % 60⟩

/-- Zero-padded decimal rendering for ISO strings. -/
def padNum (w : ℕ) (n : ℤ) : String :=
  let s := toString n
  ⟨List.replicate (w - s.length) '0'⟩ ++ s

/-- Date.toISOString (milliseconds are always 0 for our dates; local
time identified with UTC). -/
def isoString (dt : JSDate) : String :=
  padNum 4 dt.year ++ "-" ++ padNum 2 dt.month ++ "-" ++ padNum 2 dt.day ++ "T" ++
    padNum 2 dt.hour ++ ":" ++ padNum 2 dt.minute ++ ":" ++ padNum 2 dt.second ++ ".000Z"

/-! ## The dd/mm/yyyy hh:mm:ss pattern -/

/-- Read exactly k decimal digits, returning their value and the rest. -/
def readDigits : ℕ → ℤ → List Char → Option (ℤ × List Char)
  | 0, acc, l => some (acc, l)
  | _ + 1, _, [] => none
  | k + 1, acc, c :: l =>
      if isDigitCh c then readDigits k (acc * 10 + digitVal c) l else none

/-- Expect one specific character. -/
def expectChar (c : Char) : List Char → Option (List Char)
  | [] => none
  | x :: l => if x = c then some l else none

/-- One or more whitespace characters, greedily. -/
def skipWs1 : List Char → Option (List Char)
  | [] => none
  | c :: l => if isJsWs c then some (l.dropWhile isJsWs) else none

/-- Try the pattern dd/mm/yyyy ws+ hh:mm:ss at this position. -/
def matchHere (l : List Char) : Option (ℤ × ℤ × ℤ × ℤ × ℤ × ℤ) := do
  let (dd, l) ← readDigits 2 0 l
  let l ← expectChar '/' l
  let (mm, l) ← readDigits 2 0 l
  let l ← expectChar '/' l
  let (yy, l) ← readDigits 4 0 l
  let l ← skipWs1 l
  let (hh, l) ← readDigits 2 0 l
  let l ← expectChar ':' l
  let (mi, l) ← readDigits 2 0 l
  let l ← expectChar ':' l
  let (ss, _) ← readDigits 2 0 l
  pure (dd, mm, yy, hh, mi, ss)

/-- Leftmost match of the unanchored pattern, as String.match does. -/
def scanMatch : List Char → Option (ℤ × ℤ × ℤ × ℤ × ℤ × ℤ)
  | [] => none
  | c :: l =>
      match matchHere (c :: l) with
      | some r => some r
      | none => scanMatch l

/-- The regex match of the source: captures (day, month, year, hour,
minute, second) of the first dd/mm/yyyy hh:mm:ss occurrence. -/
def matchDDMMYYYY (s : String) : Option (ℤ × ℤ × ℤ × ℤ × ℤ × ℤ) :=
  scanMatch s.toList

/-- Timestamp parsing as every write path performs it: a matching
dd/mm/yyyy pattern takes precedence and builds the date with the numeric
constructor; otherwise the host generic parse gp decides (none is an
invalid date). -/
def parseTs (gp : String → Option JSDate) (ts : String) : Option JSDate :=
  match matchDDMMYYYY ts with
  | some (dd, mm, yy, hh, mi, ss) => some (jsDate6 yy (mm - 1) dd hh mi ss)
  | none => gp ts

/-- toISO from the source: a dd/mm/yyyy timestamp is rebuilt and rendered
as ISO; otherwise the generic parse is rendered when valid, and the raw
string is returned unchanged when not. -/
def toISO (gp : String → Option JSDate) (ts : String) : String :=
  match matchDDMMYYYY ts with
  | some (dd, mm, yy, hh, mi, ss) => isoString (jsDate6 yy (mm - 1) dd hh mi ss)
  | none =>
      match gp ts with
      | some d => isoString d
      | none => ts

/-! ## The partitioned store -/

/-- One data row: the six stored columns A-F in their fixed order.  The
timestamp column holds the raw string that was appended. -/
structure Txn where
  timestamp : String
  vnd : ℚ
  eur : ℚ
  usd : ℚ
  category : String
  note : String
deriving DecidableEq, Repr

/-- One monthly sheet: its name, the budget cell I12, and its data rows.
The data row at list position j occupies sheet row j + 3 (rows 1-2 are
the header and the totals row); all formula cells are derived below. -/
structure Sheet where
  name : String
  budget : ℚ
  rows : List Txn
deriving DecidableEq, Repr

/-- The spreadsheet: its sheets in tab order (insertSheet appends). -/
abbrev SheetState := List Sheet

/-- SpreadsheetApp getSheetByName: first sheet with that exact name. -/
def getSheetByName : SheetState → String → Option Sheet
  | [], _ => none
  | s :: rest, n => if s.name = n then some s else getSheetByName rest n

/-- English month names, as in the source. -/
def monthNames : List String :=
  ["January", "February", "March", "April", "May", "June",
   "July", "August", "September", "October", "November", "December"]

/-- Indexing monthNames as a JavaScript array: out-of-range subscripts
(negative or past the end) yield undefined, stringified "undefined". -/
def monthNameAt (i : ℤ) : String :=
  if i < 0 then "undefined" else (monthNames.get? i.toNat).getD "undefined"

/-- getMonthSheetName: month name of the date plus its year.  The source
throws on an invalid date; only valid dates reach this function here. -/
def getMonthSheetName (d : JSDate) : String :=
  monthNameAt (d.month - 1) ++ " " ++ toString d.year

/-- getSheetNameFromParams: sheet name from raw year/month parameters
(month is 1-12 when in range). -/
def getSheetNameFromParams (year month : ℤ) : String :=
  monthNameAt (month - 1) ++ " " ++ toString year

/-- createMonthSheet: a fresh sheet with no data rows and the budget cell
initialized to the default 1600.  Headers, the totals row and the summary
block are formulas, modelled as the derived functions below. -/
def createMonthSheet (n : String) : Sheet :=
  ⟨n, 1600, []⟩

/-- getOrCreateMonthSheet: look the month sheet up by name; insert a
fresh one at the end when absent.  Returns the sheet handle and the
resulting spreadsheet. -/
def getOrCreateMonthSheet (st : SheetState) (d : JSDate) : Sheet × SheetState :=
  let n := getMonthSheetName d
  match getSheetByName st n with
  | some s => (s, st)
  | none => (createMonthSheet n, st ++ [createMonthSheet n])

/-- Mutate the first sheet with the given name (the handle that
getSheetByName returned), leaving every other sheet unchanged. -/
def modifySheet : SheetState → String → (Sheet → Sheet) → SheetState
  | [], _, _ => []
  | s :: rest, n, f =>
      if s.name = n then f s :: rest else s :: modifySheet rest n f

/-- deleteRow on a sheet handle: remove data row at sheet row r; the
store rejects (throws on) a row outside the data range. -/
def deleteRowOp (s : Sheet) (r : ℤ) : Option Sheet :=
  if 3 ≤ r ∧ (r - 3).toNat < s.rows.length then
    some { s with rows := s.rows.eraseIdx (r - 3).toNat }
  else none

/-- getRange(r,1,1,6).setValues: overwrite the six columns of data row r
in place; outside the data range the layout-dependent behaviour of the
real store is modelled as a store exception. -/
def setRowOp (s : Sheet) (r : ℤ) (t : Txn) : Option Sheet :=
  if 3 ≤ r ∧ (r - 3).toNat < s.rows.length then
    some { s with rows := s.rows.set (r - 3).toNat t }
  else none

/-! ## Derived cells (live formulas over the data range) -/

/-- Totals row cell B2, formula SUM of column B over the data rows. -/
def totalVND (s : Sheet) : ℚ := (s.rows.map (·.vnd)).sum

/-- Totals row cell C2, formula SUM of column C over the data rows. -/
def totalEUR (s : Sheet) : ℚ := (s.rows.map (·.eur)).sum

/-- Totals row cell D2, formula SUM of column D over the data rows. -/
def totalUSD (s : Sheet) : ℚ := (s.rows.map (·.usd)).sum

/-- The fixed category list of the summary block H3:H11. -/
def categories : List String :=
  ["Food", "Travel", "Shopping", "Bills", "Fun", "Health", "Groceries", "Saving", "Other"]

/-- Summary cell in column I: SUMIF of the EUR column over rows whose
category cell equals the label. -/
def catAmount (s : Sheet) (c : String) : ℚ :=
  ((s.rows.filter (fun t => t.category == c)).map (·.eur)).sum

/-- Summary cell in column J: IF(C2=0, 0, I/C2), the category share of
total EUR as a raw fraction. -/
def catPctVal (s : Sheet) (c : String) : ℚ :=
  if totalEUR s = 0 then 0 else catAmount s c / totalEUR s

/-- Budget cell J12, formula 1 - C2/I12.  A zero budget makes the
formula a division-by-zero error cell, whose value reads back as an
error string. -/
def budgetPercentCell (s : Sheet) : JSVal :=
  if s.budget = 0 then .str "#DIV/0!" else .num (1 - totalEUR s / s.budget)

/-- JavaScript x || 0 on a rational (falsy 0 maps to 0: the identity). -/
def orZero (q : ℚ) : ℚ := if q = 0 then 0 else q

/-- JavaScript v || 0 on a cell value: falsy values map to the number 0. -/
def orZeroVal (v : JSVal) : JSVal :=
  match v with
  | .num q => if q = 0 then .num 0 else .num q
  | .str s => if s = "" then .num 0 else .str s
  | .undef => .num 0

/-! ## Responses -/

/-- One element of a transactions list in a read response. -/
structure TxnOut where
  row : ℤ
  sheetName : String
  timestamp : String
  vnd : ℚ
  eur : ℚ
  usd : ℚ
  category : String
  note : String
deriving DecidableEq, Repr

/-- One category entry of the stats object. -/
structure CatStat where
  amount : ℚ
  percent : Option ℤ
deriving DecidableEq, Repr

/-- The budget object of a read response. -/
structure BudgetOut where
  amount : ℚ
  percent : Option ℤ
deriving DecidableEq, Repr

/-- A response of the web app: a success/error message, one of the read
payloads, or an exception that escaped doGet uncaught (the framework
then produces no JSON response at all). -/
inductive Resp where
  | ok (message : String)
  | err (message : String)
  | allData (totalVND totalEUR totalUSD : ℚ) (transactions : List TxnOut)
      (stats : List (String × CatStat)) (budget : BudgetOut)
  | txnsResp (transactions : List TxnOut)
  | statsResp (stats : List (String × CatStat)) (budget : BudgetOut)
  | totalsResp (totalVND totalEUR totalUSD : ℚ)
  | thrown (message : String)
deriving DecidableEq, Repr

/-- The status field of the JSON response; none when an uncaught
exception produced no JSON response. -/
def respStatus : Resp → Option String
  | .err _ => some "error"
  | .thrown _ => none
  | _ => some "success"

/-- The transactions list carried by a response, when it has one. -/
def respTxns : Resp → Option (List TxnOut)
  | .allData _ _ _ l _ _ => some l
  | .txnsResp l => some l
  | _ => none

/-- The budget object carried by a response, when it has one. -/
def respBudget : Resp → Option BudgetOut
  | .allData _ _ _ _ _ b => some b
  | .statsResp _ b => some b
  | _ => none

/-! ## Read endpoints -/

/-- One transactions[] element built from data row t at sheet row r. -/
def mkTxnOut (gp : String → Option JSDate) (n : String) (r : ℤ) (t : Txn) : TxnOut :=
  ⟨r, n, toISO gp t.timestamp, orZero t.vnd, orZero t.eur, orZero t.usd,
    t.category, t.note⟩

/-- The transactions list: the source loops over getValues rows from the
last down to index 2, skipping rows with a falsy timestamp cell, so the
result is the data rows in descending sheet-row order.  Data row at list
position j sits at sheet row j + 3. -/
def getTransactionsList (gp : String → Option JSDate) (s : Sheet) : List TxnOut :=
  ((s.rows.enum.filter (fun p => !(p.2.timestamp == ""))).map
      (fun p => mkTxnOut gp s.name ((p.1 : ℤ) + 3) p.2)).reverse

/-- The stats object: one entry per summary-block row H3:H11 (the fixed
labels are never empty, so none is skipped), each with the SUMIF amount
and the parsePct of the share formula value. -/
def statsOf (s : Sheet) : List (String × CatStat) :=
  categories.map (fun c => (c, ⟨orZero (catAmount s c), parsePct (.num (catPctVal s c))⟩))

/-- The budget object: I12 and parsePct of the J12 formula value, each
read with a || 0 guard. -/
def budgetOf (s : Sheet) : BudgetOut :=
  ⟨orZero (orZero s.budget), parsePct (orZeroVal (budgetPercentCell s))⟩

/-- getAllData: totals, transactions and stats in one response.  On a
null sheet handle the member access throws. -/
def getAllData (gp : String → Option JSDate) : Option Sheet → Resp
  | none => .thrown "TypeError: null sheet"
  | some s =>
      .allData (orZero (totalVND s)) (orZero (totalEUR s)) (orZero (totalUSD s))
        (getTransactionsList gp s) (statsOf s) (budgetOf s)

/-- getTransactionHistory: the transactions list alone. -/
def getTransactionHistory (gp : String → Option JSDate) : Option Sheet → Resp
  | none => .thrown "TypeError: null sheet"
  | some s => .txnsResp (getTransactionsList gp s)

/-- getStatsData: stats and budget alone. -/
def getStatsData : Option Sheet → Resp
  | none => .thrown "TypeError: null sheet"
  | some s => .statsResp (statsOf s) (budgetOf s)

/-- getMonthlyTotals: the three totals cells alone. -/
def getMonthlyTotals : Option Sheet → Resp
  | none => .thrown "TypeError: null sheet"
  | some s => .totalsResp (orZero (totalVND s)) (orZero (totalEUR s)) (orZero (totalUSD s))

/-! ## Request routing -/

/-- A GET request after transport-layer parsing: action and sheetName
stay strings; row, year and month are parseInt results (none for a
missing parameter or NaN); the amount and budget parameters are
parseFloat results (none for missing or NaN). -/
structure GetReq where
  action : Option String := none
  year : Option ℤ := none
  month : Option ℤ := none
  row : Option ℤ := none
  sheetName : Option String := none
  timestamp : Option String := none
  vnd : Option ℚ := none
  eur : Option ℚ := none
  usd : Option ℚ := none
  budget : Option ℚ := none
  category : Option String := none
  note : Option String := none
deriving DecidableEq, Repr

/-- JavaScript falsiness of an optional string parameter: missing
(undefined) or empty. -/
def falsyOptStr : Option String → Bool
  | none => true
  | some s => s == ""

/-- The six-column row a write action appends or sets: raw timestamp,
parseFloat(amount) || 0 three times, category || empty, note || empty. -/
def newTxn (e : GetReq) (ts : String) : Txn :=
  ⟨ts, e.vnd.getD 0, e.eur.getD 0, e.usd.getD 0, e.category.getD "", e.note.getD ""⟩

/-- The delete branch of doGet: guard on a falsy or below-offset row and
a falsy sheet name, then look the named sheet up, then deleteRow inside
a try/catch. -/
def deleteBranch (st : SheetState) (row? : Option ℤ) (sn? : Option String) :
    Resp × SheetState :=
  match row? with
  | none => (.err "Invalid parameters for delete", st)
  | some r =>
      if r = 0 ∨ r < 3 ∨ falsyOptStr sn? = true then
        (.err "Invalid parameters for delete", st)
      else
        let n := sn?.getD ""
        match getSheetByName st n with
        | none => (.err ("Sheet not found: " ++ n), st)
        | some s =>
            match deleteRowOp s r with
            | some s2 =>
                (.ok ("Deleted row " ++ toString r ++ " from " ++ n), modifySheet st n (fun _ => s2))
            | none => (.err "Delete failed: row out of range", st)

/-- The update branch of doGet: same guards as delete, then the new
timestamp decides between a cross-month move (append to the target
month sheet, created if absent, then delete the original row) and an
in-place overwrite of the six columns.  An unparseable timestamp throws
inside the try, before any mutation; a failing delete after a completed
append leaves the appended copy behind. -/
def updateBranch (gp : String → Option JSDate) (st : SheetState) (e : GetReq) :
    Resp × SheetState :=
  match e.row with
  | none => (.err "Invalid parameters for update", st)
  | some r =>
      if r = 0 ∨ r < 3 ∨ falsyOptStr e.sheetName = true then
        (.err "Invalid parameters for update", st)
      else
        let n := e.sheetName.getD ""
        match getSheetByName st n with
        | none => (.err ("Sheet not found: " ++ n), st)
        | some s =>
            match e.timestamp with
            | none => (.err "Update failed: TypeError", st)
            | some ts =>
                match parseTs gp ts with
                | none => (.err "Update failed: invalid date", st)
                | some nd =>
                    let newName := getMonthSheetName nd
                    let t := newTxn e ts
                    if newName ≠ n then
                      let st3 := modifySheet (getOrCreateMonthSheet st nd).2 newName
                        (fun sh => { sh with rows := sh.rows ++ [t] })
                      match deleteRowOp s r with
                      | some s2 =>
                          (.ok ("Moved from " ++ n ++ " to " ++ newName),
                            modifySheet st3 n (fun _ => s2))
                      | none => (.err "Update failed: row out of range", st3)
                    else
                      match setRowOp s r t with
                      | some s2 =>
                          (.ok ("Updated row " ++ toString r), modifySheet st n (fun _ => s2))
                      | none => (.err "Update failed: row out of range", st)

/-- The addEntry branch of doGet: parse the timestamp (a missing
parameter makes the match call throw, an unparseable one makes
getMonthSheetName throw, both caught before any mutation), then get or
create the month sheet and append the six-column row at its end. -/
def addEntryBranch (gp : String → Option JSDate) (st : SheetState) (e : GetReq) :
    Resp × SheetState :=
  match e.timestamp with
  | none => (.err "Add failed: TypeError", st)
  | some ts =>
      match parseTs gp ts with
      | none => (.err "Add failed: invalid date", st)
      | some d =>
          let n := getMonthSheetName d
          (.ok ("Added to " ++ n),
            modifySheet (getOrCreateMonthSheet st d).2 n
              (fun sh => { sh with rows := sh.rows ++ [newTxn e ts] }))

/-- The updateBudget branch of doGet: guard on a falsy or non-positive
budget and an out-of-range month, then set I12 on the viewing sheet,
creating the month sheet first when absent. -/
def updateBudgetBranch (st : SheetState) (e : GetReq) (year month : ℤ)
    (sheetName : String) (sheet : Option Sheet) : Resp × SheetState :=
  match e.budget with
  | none => (.err "Invalid budget amount", st)
  | some b =>
      if b ≤ 0 then (.err "Invalid budget amount", st)
      else if month < 1 ∨ 12 < month then
        (.err "Invalid year or month parameters", st)
      else
        match sheet with
        | some _ =>
            (.ok ("Budget updated to " ++ toString b),
              modifySheet st sheetName (fun sh => { sh with budget := b }))
        | none =>
            let d := jsDate6 year (month - 1) 1 0 0 0
            (.ok ("Budget updated to " ++ toString b),
              modifySheet (getOrCreateMonthSheet st d).2 (getMonthSheetName d)
                (fun sh => { sh with budget := b }))

/-- doGet: resolve the viewing month (defaulting to the clock now),
answer the three batched reads with an all-zero success payload when the
viewing sheet is absent, then dispatch on the action string exactly as
the source's if chain does.  The final default falls through to
getMonthlyTotals, whose null-sheet member access is not guarded. -/
def doGet (gp : String → Option JSDate) (now : JSDate) (e : GetReq)
    (st : SheetState) : Resp × SheetState :=
  let action := e.action.getD "default"
  let year := e.year.getD now.year
  let month := e.month.getD now.month
  let sheetName := getSheetNameFromParams year month
  let sheet := getSheetByName st sheetName
  if sheet = none ∧ (action = "getAllData" ∨ action = "getTransactions" ∨ action = "getStats") then
    (.allData 0 0 0 [] [] ⟨0, some 0⟩, st)
  else if action = "delete" then deleteBranch st e.row e.sheetName
  else if action = "update" then updateBranch gp st e
  else if action = "addEntry" then addEntryBranch gp st e
  else if action = "updateBudget" then updateBudgetBranch st e year month sheetName sheet
  else if action = "getAllData" then (getAllData gp sheet, st)
  else if action = "getTransactions" then (getTransactionHistory gp sheet, st)
  else if action = "getStats" then (getStatsData sheet, st)
  else (getMonthlyTotals sheet, st)

/-- A POST body after JSON parsing. -/
structure PostData where
  timestamp : Option String := none
  vnd : Option ℚ := none
  eur : Option ℚ := none
  usd : Option ℚ := none
  category : Option String := none
  note : Option String := none
deriving DecidableEq, Repr

/-- doPost: always an append.  A missing timestamp makes the match call
throw and an unparseable one makes getMonthSheetName throw, both caught
with no mutation; otherwise the raw timestamp and defaulted fields are
appended to the month sheet of the parsed date. -/
def doPost (gp : String → Option JSDate) (pd : PostData) (st : SheetState) :
    Resp × SheetState :=
  match pd.timestamp with
  | none => (.err "TypeError", st)
  | some ts =>
      match parseTs gp ts with
      | none => (.err "Error: invalid date", st)
      | some d =>
          let n := getMonthSheetName d
          (.ok ("Added to " ++ n),
            modifySheet (getOrCreateMonthSheet st d).2 n
              (fun sh => { sh with rows :=
                sh.rows ++ [⟨ts, pd.vnd.getD 0, pd.eur.getD 0, pd.usd.getD 0,
                  pd.category.getD "", pd.note.getD ""⟩] }))

/-! ## Store lemmas -/

theorem orZero_eq (q : ℚ) : orZero q = q := by
  unfold orZero
  split <;> simp_all

theorem getSheetByName_name {st : SheetState} {n : String} {s : Sheet}
    (h : getSheetByName st n = some s) : s.name = n := by
  induction st with
  | nil => simp [getSheetByName] at h
  | cons x rest ih =>
      by_cases hx : x.name = n
      · simp [getSheetByName, hx] at h
        rw [← h]
        exact hx
      · simp [getSheetByName, hx] at h
        exact ih h

theorem getSheetByName_append_of_found {st : SheetState} {n : String} {s : Sheet}
    (x : Sheet) (h : getSheetByName st n = some s) :
    getSheetByName (st ++ [x]) n = some s := by
  induction st with
  | nil => simp [getSheetByName] at h
  | cons y rest ih =>
      by_cases hy : y.name = n <;>
        simp_all [getSheetByName, hy]

theorem getSheetByName_append_of_none {st : SheetState} {n : String}
    (x : Sheet) (h : getSheetByName st n = none) :
    getSheetByName (st ++ [x]) n = if x.name = n then some x else none := by
  induction st with
  | nil => simp [getSheetByName]
  | cons y rest ih =>
      by_cases hy : y.name = n <;>
        simp_all [getSheetByName, hy]

theorem modifySheet_append_of_none {st : SheetState} {n : String}
    (x : Sheet) (f : Sheet → Sheet) (h : getSheetByName st n = none) :
    modifySheet (st ++ [x]) n f = st ++ (if x.name = n then [f x] else [x]) := by
  induction st with
  | nil =>
      by_cases hx : x.name = n <;> simp [modifySheet, hx]
  | cons y rest ih =>
      by_cases hy : y.name = n <;>
        simp_all [getSheetByName, modifySheet, hy]

theorem getSheetByName_modifySheet_self (st : SheetState) (n : String) (f : Sheet → Sheet)
    (hf : ∀ x : Sheet, x.name = n → (f x).name = n) :
    getSheetByName (modifySheet st n f) n = (getSheetByName st n).map f := by
  induction st with
  | nil => rfl
  | cons y rest ih =>
      by_cases hy : y.name = n
      · simp [modifySheet, getSheetByName, hy, hf y hy]
      · simp [modifySheet, getSheetByName, hy, ih]

theorem getSheetByName_modifySheet_ne (st : SheetState) (n m : String) (f : Sheet → Sheet)
    (hm : m ≠ n) (hf : ∀ x : Sheet, x.name = n → (f x).name = n) :
    getSheetByName (modifySheet st n f) m = getSheetByName st m := by
  induction st with
  | nil => rfl
  | cons y rest ih =>
      by_cases hy : y.name = n
      · have h1 : (f y).name = n := hf y hy
        have h2 : ¬ (f y).name = m := by rw [h1]; exact fun hc => hm hc.symm
        have h3 : ¬ y.name = m := by rw [hy]; exact fun hc => hm hc.symm
        simp only [modifySheet, if_pos hy, getSheetByName]
        rw [if_neg h2, if_neg h3]
      · simp only [modifySheet, if_neg hy, getSheetByName]
        by_cases hym : y.name = m
        · rw [if_pos hym, if_pos hym]
        · rw [if_neg hym, if_neg hym]
          exact ih

theorem modifySheet_modifySheet (st : SheetState) (n : String) (f g : Sheet → Sheet)
    (hf : ∀ x : Sheet, x.name = n → (f x).name = n) :
    modifySheet (modifySheet st n f) n g = modifySheet st n (fun x => g (f x)) := by
  induction st with
  | nil => rfl
  | cons y rest ih =>
      by_cases hy : y.name = n
      · simp [modifySheet, hy, hf y hy]
      · simp [modifySheet, hy, ih]

theorem modifySheet_self_of_found {st : SheetState} {n : String} {s : Sheet}
    (h : getSheetByName st n = some s) :
    modifySheet st n (fun _ => s) = st := by
  induction st with
  | nil => rfl
  | cons y rest ih =>
      by_cases hy : y.name = n
      · simp only [getSheetByName, if_pos hy, Option.some.injEq] at h
        subst h
        simp only [modifySheet, if_pos hy]
      · simp only [getSheetByName, if_neg hy] at h
        simp only [modifySheet, if_neg hy, ih h]

/-- Number of sheets carrying a given name. -/
def countName (st : SheetState) (n : String) : ℕ :=
  (st.filter (fun s => s.name == n)).length

theorem countName_cons (y : Sheet) (rest : SheetState) (n : String) :
    countName (y :: rest) n = (if y.name = n then 1 else 0) + countName rest n := by
  by_cases hy : y.name = n
  · simp [countName, List.filter_cons, hy]
    omega
  · simp [countName, List.filter_cons, hy]

theorem countName_pos_of_found {st : SheetState} {n : String} {s : Sheet}
    (h : getSheetByName st n = some s) : 1 ≤ countName st n := by
  induction st with
  | nil => simp [getSheetByName] at h
  | cons y rest ih =>
      rw [countName_cons]
      by_cases hy : y.name = n
      · rw [if_pos hy]
        omega
      · simp [getSheetByName, hy] at h
        have := ih h
        rw [if_neg hy]
        omega

theorem countName_zero_of_none {st : SheetState} {n : String}
    (h : getSheetByName st n = none) : countName st n = 0 := by
  induction st with
  | nil => rfl
  | cons y rest ih =>
      rw [countName_cons]
      by_cases hy : y.name = n
      · simp [getSheetByName, hy] at h
      · simp [getSheetByName, hy] at h
        simp [hy, ih h]

theorem countName_append (st : SheetState) (x : Sheet) (n : String) :
    countName (st ++ [x]) n = countName st n + countName [x] n := by
  simp [countName, List.filter_append]

theorem getMonthSheetName_ne_empty (d : JSDate) : getMonthSheetName d ≠ "" := by
  intro h
  have h2 : (getMonthSheetName d).length = 0 := by rw [h]; rfl
  rw [getMonthSheetName, String.length_append, String.length_append] at h2
  have h3 : (" " : String).length = 1 := rfl
  omega

/-! ## Dispatch lemmas: doGet routed to its branches -/

theorem doGet_eq_deleteBranch (gp : String → Option JSDate) (now : JSDate)
    (e : GetReq) (st : SheetState) (h : e.action = some "delete") :
    doGet gp now e st = deleteBranch st e.row e.sheetName := by
  simp [doGet, h]

theorem doGet_eq_updateBranch (gp : String → Option JSDate) (now : JSDate)
    (e : GetReq) (st : SheetState) (h : e.action = some "update") :
    doGet gp now e st = updateBranch gp st e := by
  simp [doGet, h]

theorem doGet_eq_addEntryBranch (gp : String → Option JSDate) (now : JSDate)
    (e : GetReq) (st : SheetState) (h : e.action = some "addEntry") :
    doGet gp now e st = addEntryBranch gp st e := by
  simp [doGet, h]

/-! ## Claims -/

theorem jsRound_eq_of {q : ℚ} {z : ℤ} (h1 : (z : ℚ) ≤ q + 1 / 2)
    (h2 : q + 1 / 2 < z + 1) : jsRound q = z := by
  unfold jsRound
  rw [Int.floor_eq_iff]
  exact ⟨h1, h2⟩

/-- C1: parsePct maps its input to an integer percentage by the three-way
rule: a string containing a percent sign is stripped of it and parsed as
an integer; a number with absolute value under 10 and nonzero is
multiplied by 100 and rounded; any other number is rounded directly; in
particular "45%" maps to 45, 0.07 to 7, 12 to 12 and 0 to 0. -/
theorem claim_C1_parsePct :
    parsePct (.str "45%") = some 45 ∧
    parsePct (.num (7 / 100)) = some 7 ∧
    parsePct (.num 12) = some 12 ∧
    parsePct (.num 0) = some 0 ∧
    (∀ s : String, strContains s '%' = true →
      parsePct (.str s) = jsParseInt (stripPctOnce s)) ∧
    (∀ q : ℚ, |q| < 10 → q ≠ 0 → parsePct (.num q) = some (jsRound (q * 100))) ∧
    (∀ q : ℚ, ¬(|q| < 10 ∧ q ≠ 0) → parsePct (.num q) = some (jsRound q)) := by
  refine ⟨by decide, ?_, ?_, ?_, ?_, ?_, ?_⟩
  · simp only [parsePct]
    rw [if_pos ⟨by rw [abs_lt]; constructor <;> norm_num, by norm_num⟩]
    congr 1
    apply jsRound_eq_of <;> norm_num
  · simp only [parsePct]
    rw [if_neg (fun h => by rw [abs_lt] at h; exact absurd h.1.2 (by norm_num))]
    congr 1
    apply jsRound_eq_of <;> norm_num
  · simp only [parsePct]
    rw [if_neg (fun h => h.2 rfl)]
    congr 1
    apply jsRound_eq_of <;> norm_num
  · intro s h
    simp only [parsePct, h, if_true]
  · intro q h1 h2
    simp only [parsePct, if_pos (And.intro h1 h2)]
  · intro q h
    simp only [parsePct, if_neg h]

/-- Witness for C1: each general rule of the theorem applied at a
concrete input. -/
theorem claim_C1_parsePct_witness :
    parsePct (.str "50%") = jsParseInt (stripPctOnce "50%") ∧
    parsePct (.num (1 / 2)) = some (jsRound (1 / 2 * 100)) ∧
    parsePct (.num 12) = some (jsRound 12) :=
  ⟨claim_C1_parsePct.2.2.2.2.1 "50%" (by decide),
   claim_C1_parsePct.2.2.2.2.2.1 (1 / 2)
     (by rw [abs_lt]; constructor <;> norm_num) (by norm_num),
   claim_C1_parsePct.2.2.2.2.2.2 12
     (fun h => by rw [abs_lt] at h; exact absurd h.1.2 (by norm_num))⟩

/-- C2, counterexample to the claim as stated: the default totals action
addressed to a month with no partition does not produce a success
response; the unguarded null-sheet member access throws out of doGet. -/
theorem claim_C2_counterexample :
    respStatus (doGet (fun _ => none) ⟨2026, 3, 15, 0, 0, 0⟩
      { year := some 2026, month := some 3 } []).1 ≠ some "success" := by
  decide

/-- C2, amended: for the three named read actions getAllData,
getTransactions and getStats, a request addressed to a month whose
partition does not exist yields a success response with the zero/empty
defaults (zero totals, empty transaction list, empty stats, budget
amount 0 and percent 0) and no state change; the default totals action
addressed to such a month instead fails with an uncaught exception,
producing no success or error response, with no state change. -/
theorem claim_C2_reads_absent_partition (gp : String → Option JSDate) (now : JSDate)
    (st : SheetState) (y m : Option ℤ)
    (habsent : getSheetByName st
      (getSheetNameFromParams (y.getD now.year) (m.getD now.month)) = none) :
    (∀ a : String, (a = "getAllData" ∨ a = "getTransactions" ∨ a = "getStats") →
      ∀ e : GetReq, e.action = some a → e.year = y → e.month = m →
        doGet gp now e st = (.allData 0 0 0 [] [] ⟨0, some 0⟩, st)) ∧
    (∀ e : GetReq, e.action = none → e.year = y → e.month = m →
      respStatus (doGet gp now e st).1 = none ∧ (doGet gp now e st).2 = st) := by
  constructor
  · intro a ha e hact hy hm
    subst hy
    subst hm
    rcases ha with h | h | h <;> subst h <;> simp [doGet, hact, habsent]
  · intro e hact hy hm
    subst hy
    subst hm
    simp [doGet, hact, habsent, getMonthlyTotals, respStatus]

/-- Witness for C2: the amended theorem applied at a concrete request
against the empty spreadsheet. -/
theorem claim_C2_reads_absent_partition_witness :
    doGet (fun _ => none) ⟨2026, 3, 15, 0, 0, 0⟩
        { action := some "getAllData", year := some 2026, month := some 3 } [] =
      (.allData 0 0 0 [] [] ⟨0, some 0⟩, []) :=
  (claim_C2_reads_absent_partition (fun _ => none) ⟨2026, 3, 15, 0, 0, 0⟩ []
      (some 2026) (some 3) (by decide)).1 "getAllData" (Or.inl rfl) _ rfl rfl rfl

/-- C7: the budget cell defaults to 1600 at partition creation; the
budget-remaining figure reported by getStats and getAllData is the
parsePct normalization of the J12 formula value 1 - totalEUR/budget and
can be negative; totalEUR 800 against budget 1600 reads as 50 and
totalEUR 2000 against budget 1600 reads as -25. -/
theorem claim_C7_budget (gp : String → Option JSDate) :
    (∀ n : String, (createMonthSheet n).budget = 1600) ∧
    (∀ s : Sheet, respBudget (getStatsData (some s)) = some (budgetOf s) ∧
      respBudget (getAllData gp (some s)) = some (budgetOf s)) ∧
    (∀ s : Sheet, s.budget ≠ 0 →
      (budgetOf s).percent = parsePct (.num (1 - totalEUR s / s.budget))) ∧
    (budgetOf ⟨"May 2026", 1600, [⟨"01/05/2026 00:00:00", 0, 800, 0, "Food", ""⟩]⟩).percent
      = some 50 ∧
    (budgetOf ⟨"May 2026", 1600, [⟨"01/05/2026 00:00:00", 0, 2000, 0, "Food", ""⟩]⟩).percent
      = some (-25) := by
  refine ⟨fun n => rfl, fun s => ⟨rfl, rfl⟩, ?_, ?_, ?_⟩
  · intro s hs
    simp only [budgetOf, budgetPercentCell, if_neg hs, orZeroVal]
    by_cases h0 : 1 - totalEUR s / s.budget = 0
    · rw [if_pos h0, h0]
    · rw [if_neg h0]
  · have ht : totalEUR ⟨"May 2026", 1600,
        [⟨"01/05/2026 00:00:00", 0, 800, 0, "Food", ""⟩]⟩ = 800 := by
      norm_num [totalEUR]
    simp only [budgetOf, budgetPercentCell, ht]
    rw [if_neg (by norm_num : ¬(1600 : ℚ) = 0)]
    have hq : (1 : ℚ) - 800 / 1600 = 1 / 2 := by norm_num
    rw [hq]
    simp only [orZeroVal]
    rw [if_neg (by norm_num : ¬(1 / 2 : ℚ) = 0)]
    simp only [parsePct]
    rw [if_pos ⟨by rw [abs_lt]; constructor <;> norm_num, by norm_num⟩]
    congr 1
    apply jsRound_eq_of <;> norm_num
  · have ht : totalEUR ⟨"May 2026", 1600,
        [⟨"01/05/2026 00:00:00", 0, 2000, 0, "Food", ""⟩]⟩ = 2000 := by
      norm_num [totalEUR]
    simp only [budgetOf, budgetPercentCell, ht]
    rw [if_neg (by norm_num : ¬(1600 : ℚ) = 0)]
    have hq : (1 : ℚ) - 2000 / 1600 = -(1 / 4) := by norm_num
    rw [hq]
    simp only [orZeroVal]
    rw [if_neg (by norm_num : ¬(-(1 / 4) : ℚ) = 0)]
    simp only [parsePct]
    rw [if_pos ⟨by rw [abs_lt]; constructor <;> norm_num, by norm_num⟩]
    congr 1
    apply jsRound_eq_of <;> norm_num

/-- Witness for C7: the general budget-figure rule applied at a concrete
partition. -/
theorem claim_C7_budget_witness :
    (budgetOf ⟨"May 2026", 1600, []⟩).percent =
      parsePct (.num (1 - totalEUR ⟨"May 2026", 1600, []⟩ / (1600 : ℚ))) :=
  (claim_C7_budget (fun _ => none)).2.2.1 ⟨"May 2026", 1600, []⟩ (by norm_num)

/-- C10: getOrCreateMonthSheet is idempotent in effect: requesting the
same month key again after a first request returns the same sheet and
leaves the spreadsheet unchanged, and the first request never produces a
duplicate sheet for that key. -/
theorem claim_C10_getOrCreate_idempotent (st : SheetState) (d : JSDate) :
    getOrCreateMonthSheet (getOrCreateMonthSheet st d).2 d =
      ((getOrCreateMonthSheet st d).1, (getOrCreateMonthSheet st d).2) ∧
    countName (getOrCreateMonthSheet st d).2 (getMonthSheetName d) =
      max (countName st (getMonthSheetName d)) 1 := by
  cases h : getSheetByName st (getMonthSheetName d) with
  | some s =>
      refine ⟨?_, ?_⟩
      · simp [getOrCreateMonthSheet, h]
      · simp only [getOrCreateMonthSheet, h]
        have := countName_pos_of_found h
        omega
  | none =>
      have hlook : getSheetByName (st ++ [createMonthSheet (getMonthSheetName d)])
          (getMonthSheetName d) = some (createMonthSheet (getMonthSheetName d)) := by
        rw [getSheetByName_append_of_none _ h]
        simp [createMonthSheet]
      refine ⟨?_, ?_⟩
      · simp [getOrCreateMonthSheet, h, hlook]
      · simp only [getOrCreateMonthSheet, h]
        rw [countName_append, countName_zero_of_none h]
        have h1 : countName [createMonthSheet (getMonthSheetName d)]
            (getMonthSheetName d) = 1 := by
          simp [countName, createMonthSheet, List.filter]
        rw [h1]
        omega

/-- C5: a delete request with a row index below the data-row offset 3
answers with an error and mutates nothing; so does one naming a missing
partition; otherwise the addressed data row is removed from the named
partition (other partitions untouched) and every row previously at a
larger index shifts down by one. -/
theorem claim_C5_delete (gp : String → Option JSDate) (now : JSDate) (st : SheetState)
    (r : ℤ) (sn : String) (e : GetReq) (hact : e.action = some "delete")
    (hrow : e.row = some r) (hsn : e.sheetName = some sn) :
    (r < 3 →
      (doGet gp now e st).1 = .err "Invalid parameters for delete" ∧
      (doGet gp now e st).2 = st) ∧
    (3 ≤ r → sn ≠ "" → getSheetByName st sn = none →
      (doGet gp now e st).1 = .err ("Sheet not found: " ++ sn) ∧
      (doGet gp now e st).2 = st) ∧
    (∀ s : Sheet, 3 ≤ r → sn ≠ "" → getSheetByName st sn = some s →
      (r - 3).toNat < s.rows.length →
      (doGet gp now e st).1 = .ok ("Deleted row " ++ toString r ++ " from " ++ sn) ∧
      getSheetByName (doGet gp now e st).2 sn =
        some { s with rows := s.rows.eraseIdx (r - 3).toNat } ∧
      (∀ m : String, m ≠ sn →
        getSheetByName (doGet gp now e st).2 m = getSheetByName st m) ∧
      (∀ j : ℕ, (s.rows.eraseIdx (r - 3).toNat)[j]? =
        if j < (r - 3).toNat then s.rows[j]? else s.rows[j + 1]?)) := by
  have hd : doGet gp now e st = deleteBranch st e.row e.sheetName :=
    doGet_eq_deleteBranch gp now e st hact
  rw [hrow, hsn] at hd
  refine ⟨?_, ?_, ?_⟩
  · intro h3
    rw [hd]
    simp only [deleteBranch, if_pos (Or.inr (Or.inl h3))]
    exact ⟨by trivial, by trivial⟩
  · intro h3 hne hnone
    have hc : ¬(r = 0 ∨ r < 3 ∨ falsyOptStr (some sn) = true) := by
      simp only [falsyOptStr, beq_iff_eq]
      push_neg
      exact ⟨by omega, by omega, by simpa using hne⟩
    rw [hd]
    simp only [deleteBranch, if_neg hc, Option.getD_some, hnone]
    exact ⟨by trivial, by trivial⟩
  · intro s h3 hne hfound hlen
    have hc : ¬(r = 0 ∨ r < 3 ∨ falsyOptStr (some sn) = true) := by
      simp only [falsyOptStr, beq_iff_eq]
      push_neg
      exact ⟨by omega, by omega, by simpa using hne⟩
    have hname : s.name = sn := getSheetByName_name hfound
    have hstep : deleteBranch st (some r) (some sn) =
        (.ok ("Deleted row " ++ toString r ++ " from " ++ sn),
          modifySheet st sn (fun _ => { s with rows := s.rows.eraseIdx (r - 3).toNat })) := by
      simp only [deleteBranch, if_neg hc, Option.getD_some, hfound, deleteRowOp,
        if_pos (And.intro h3 hlen)]
    have hf : ∀ x : Sheet, x.name = sn →
        (({ s with rows := s.rows.eraseIdx (r - 3).toNat } : Sheet)).name = sn :=
      fun _ _ => hname
    rw [hd, hstep]
    refine ⟨rfl, ?_, ?_, ?_⟩
    · rw [getSheetByName_modifySheet_self st sn _ hf, hfound]
      rfl
    · intro m hm
      exact getSheetByName_modifySheet_ne st sn m _ hm hf
    · intro j
      exact List.getElem?_eraseIdx s.rows (r - 3).toNat j

/-- Witness for C5: the theorem applied against a concrete two-row
partition, at the valid row 3 and at the invalid row 2. -/
theorem claim_C5_delete_witness :
    (doGet (fun _ => none) ⟨2026, 3, 15, 0, 0, 0⟩
        { action := some "delete", row := some 3, sheetName := some "March 2026" }
        [⟨"March 2026", 1600, [⟨"01/03/2026 10:00:00", 1, 2, 3, "Food", "a"⟩,
          ⟨"02/03/2026 10:00:00", 4, 5, 6, "Travel", "b"⟩]⟩]).1 =
      .ok ("Deleted row " ++ toString (3 : ℤ) ++ " from " ++ "March 2026") ∧
    getSheetByName (doGet (fun _ => none) ⟨2026, 3, 15, 0, 0, 0⟩
        { action := some "delete", row := some 3, sheetName := some "March 2026" }
        [⟨"March 2026", 1600, [⟨"01/03/2026 10:00:00", 1, 2, 3, "Food", "a"⟩,
          ⟨"02/03/2026 10:00:00", 4, 5, 6, "Travel", "b"⟩]⟩]).2 "March 2026" =
      some ⟨"March 2026", 1600, [⟨"02/03/2026 10:00:00", 4, 5, 6, "Travel", "b"⟩]⟩ ∧
    (doGet (fun _ => none) ⟨2026, 3, 15, 0, 0, 0⟩
        { action := some "delete", row := some 2, sheetName := some "March 2026" }
        [⟨"March 2026", 1600, []⟩]).1 = .err "Invalid parameters for delete" := by
  have h := claim_C5_delete (fun _ => none) ⟨2026, 3, 15, 0, 0, 0⟩
    [⟨"March 2026", 1600, [⟨"01/03/2026 10:00:00", 1, 2, 3, "Food", "a"⟩,
      ⟨"02/03/2026 10:00:00", 4, 5, 6, "Travel", "b"⟩]⟩] 3 "March 2026"
    { action := some "delete", row := some 3, sheetName := some "March 2026" }
    rfl rfl rfl
  have h3 := h.2.2 ⟨"March 2026", 1600, [⟨"01/03/2026 10:00:00", 1, 2, 3, "Food", "a"⟩,
      ⟨"02/03/2026 10:00:00", 4, 5, 6, "Travel", "b"⟩]⟩
    (by decide) (by decide) rfl (by decide)
  have h2 := claim_C5_delete (fun _ => none) ⟨2026, 3, 15, 0, 0, 0⟩
    [⟨"March 2026", 1600, []⟩] 2 "March 2026"
    { action := some "delete", row := some 2, sheetName := some "March 2026" }
    rfl rfl rfl
  exact ⟨h3.1, h3.2.1, (h2.1 (by decide)).1⟩

/-- C6: a timestamp string that neither matches the dd/mm/yyyy hh:mm:ss
pattern nor parses as a generic date makes every write action (addEntry,
update, and the POST append path) answer with status error and leave
every partition untouched: nothing is appended, overwritten, deleted or
created. -/
theorem claim_C6_malformed_timestamp (gp : String → Option JSDate) (now : JSDate)
    (st : SheetState) (ts : String) (hts : parseTs gp ts = none) :
    (∀ e : GetReq, e.action = some "addEntry" → e.timestamp = some ts →
      respStatus (doGet gp now e st).1 = some "error" ∧ (doGet gp now e st).2 = st) ∧
    (∀ e : GetReq, e.action = some "update" → e.timestamp = some ts →
      respStatus (doGet gp now e st).1 = some "error" ∧ (doGet gp now e st).2 = st) ∧
    (∀ pd : PostData, pd.timestamp = some ts →
      respStatus (doPost gp pd st).1 = some "error" ∧ (doPost gp pd st).2 = st) := by
  refine ⟨?_, ?_, ?_⟩
  · intro e hact hets
    rw [doGet_eq_addEntryBranch gp now e st hact]
    simp only [addEntryBranch, hets, hts]
    exact ⟨by trivial, by trivial⟩
  · intro e hact hets
    rw [doGet_eq_updateBranch gp now e st hact]
    cases hr : e.row with
    | none =>
        simp only [updateBranch, hr]
        exact ⟨by trivial, by trivial⟩
    | some r =>
        simp only [updateBranch, hr, hets, hts]
        by_cases hg : (r = 0 ∨ r < 3 ∨ falsyOptStr e.sheetName = true)
        · rw [if_pos hg]
          exact ⟨by trivial, by trivial⟩
        · rw [if_neg hg]
          cases hf : getSheetByName st (e.sheetName.getD "") with
          | none => exact ⟨by trivial, by trivial⟩
          | some s => exact ⟨by trivial, by trivial⟩
  · intro pd hpts
    simp only [doPost, hpts, hts]
    exact ⟨by trivial, by trivial⟩

/-- Witness for C6: the theorem applied to the unparseable timestamp
string "not a date" for all three write paths. -/
theorem claim_C6_malformed_timestamp_witness :
    (respStatus (doGet (fun _ => none) ⟨2026, 3, 15, 0, 0, 0⟩
        { action := some "addEntry", timestamp := some "not a date" } []).1 =
      some "error" ∧
     (doGet (fun _ => none) ⟨2026, 3, 15, 0, 0, 0⟩
        { action := some "addEntry", timestamp := some "not a date" } []).2 = []) ∧
    (respStatus (doGet (fun _ => none) ⟨2026, 3, 15, 0, 0, 0⟩
        { action := some "update", row := some 3, sheetName := some "March 2026",
          timestamp := some "not a date" }
        [⟨"March 2026", 1600, []⟩]).1 = some "error" ∧
     (doGet (fun _ => none) ⟨2026, 3, 15, 0, 0, 0⟩
        { action := some "update", row := some 3, sheetName := some "March 2026",
          timestamp := some "not a date" }
        [⟨"March 2026", 1600, []⟩]).2 = [⟨"March 2026", 1600, []⟩]) ∧
    (respStatus (doPost (fun _ => none)
        { timestamp := some "not a date" } []).1 = some "error" ∧
     (doPost (fun _ => none) { timestamp := some "not a date" } []).2 = []) :=
  ⟨(claim_C6_malformed_timestamp (fun _ => none) ⟨2026, 3, 15, 0, 0, 0⟩ []
      "not a date" (by decide)).1 _ rfl rfl,
   (claim_C6_malformed_timestamp (fun _ => none) ⟨2026, 3, 15, 0, 0, 0⟩
      [⟨"March 2026", 1600, []⟩] "not a date" (by decide)).2.1 _ rfl rfl,
   (claim_C6_malformed_timestamp (fun _ => none) ⟨2026, 3, 15, 0, 0, 0⟩ []
      "not a date" (by decide)).2.2 _ rfl⟩

/-- C3: an update whose new timestamp normalizes to a month different
from the source partition is a move: the new six-field row is appended
to the end of the target partition (created when absent) and the
original row is deleted from the source partition; afterwards the target
holds the new row at its end and the source transaction count has
decreased by exactly one. -/
theorem claim_C3_update_move (gp : String → Option JSDate) (now : JSDate)
    (st : SheetState) (r : ℤ) (sn ts : String) (src : Sheet) (d : JSDate)
    (hfound : getSheetByName st sn = some src) (hne : sn ≠ "")
    (h3 : 3 ≤ r) (hlen : (r - 3).toNat < src.rows.length)
    (hts : parseTs gp ts = some d) (hdiff : getMonthSheetName d ≠ sn) :
    ∀ e : GetReq, e.action = some "update" → e.row = some r → e.sheetName = some sn →
      e.timestamp = some ts →
      (doGet gp now e st).1 =
        .ok ("Moved from " ++ sn ++ " to " ++ getMonthSheetName d) ∧
      (∃ tgt : Sheet, getSheetByName (doGet gp now e st).2 (getMonthSheetName d) = some tgt ∧
        tgt.rows = (match getSheetByName st (getMonthSheetName d) with
                    | some t0 => t0.rows
                    | none => []) ++ [newTxn e ts]) ∧
      (∃ src2 : Sheet, getSheetByName (doGet gp now e st).2 sn = some src2 ∧
        src2.rows = src.rows.eraseIdx (r - 3).toNat ∧
        src2.rows.length + 1 = src.rows.length) := by
  intro e hact hrow hsnE htsE
  have hc : ¬(r = 0 ∨ r < 3 ∨ falsyOptStr (some sn) = true) := by
    simp only [falsyOptStr, beq_iff_eq]
    push_neg
    exact ⟨by omega, by omega, by simpa using hne⟩
  have hsrcname : src.name = sn := getSheetByName_name hfound
  have hstep : doGet gp now e st =
      (.ok ("Moved from " ++ sn ++ " to " ++ getMonthSheetName d),
        modifySheet
          (modifySheet (getOrCreateMonthSheet st d).2 (getMonthSheetName d)
            (fun sh => { sh with rows := sh.rows ++ [newTxn e ts] })) sn
          (fun _ => { src with rows := src.rows.eraseIdx (r - 3).toNat })) := by
    rw [doGet_eq_updateBranch gp now e st hact]
    simp only [updateBranch, hrow, hsnE, Option.getD_some, htsE, hts]
    rw [if_neg hc]
    simp only [hfound]
    rw [if_pos hdiff]
    simp only [deleteRowOp, if_pos (And.intro h3 hlen)]
  have hfapp : ∀ x : Sheet, x.name = getMonthSheetName d →
      (({ x with rows := x.rows ++ [newTxn e ts] } : Sheet)).name = getMonthSheetName d :=
    fun _ hx => hx
  have hg : ∀ x : Sheet, x.name = sn →
      (({ src with rows := src.rows.eraseIdx (r - 3).toNat } : Sheet)).name = sn :=
    fun _ _ => hsrcname
  refine ⟨by rw [hstep], ?_, ?_⟩
  · rw [hstep]
    rw [getSheetByName_modifySheet_ne _ sn (getMonthSheetName d) _ hdiff hg]
    rw [getSheetByName_modifySheet_self _ (getMonthSheetName d) _ hfapp]
    cases h0 : getSheetByName st (getMonthSheetName d) with
    | some t0 =>
        have hS1 : (getOrCreateMonthSheet st d).2 = st := by
          simp [getOrCreateMonthSheet, h0]
        rw [hS1, h0]
        exact ⟨_, rfl, rfl⟩
    | none =>
        have hS1 : (getOrCreateMonthSheet st d).2 =
            st ++ [createMonthSheet (getMonthSheetName d)] := by
          simp [getOrCreateMonthSheet, h0]
        have hif : (createMonthSheet (getMonthSheetName d)).name = getMonthSheetName d := rfl
        rw [hS1, getSheetByName_append_of_none _ h0, if_pos hif]
        exact ⟨_, rfl, rfl⟩
  · rw [hstep]
    rw [getSheetByName_modifySheet_self _ sn _ hg]
    have hsn3 : getSheetByName
        (modifySheet (getOrCreateMonthSheet st d).2 (getMonthSheetName d)
          (fun sh => { sh with rows := sh.rows ++ [newTxn e ts] })) sn =
        some src := by
      rw [getSheetByName_modifySheet_ne _ (getMonthSheetName d) sn _
        (fun hcon => hdiff hcon.symm) hfapp]
      cases h0 : getSheetByName st (getMonthSheetName d) with
      | some t0 =>
          have hS1 : (getOrCreateMonthSheet st d).2 = st := by
            simp [getOrCreateMonthSheet, h0]
          rw [hS1]
          exact hfound
      | none =>
          have hS1 : (getOrCreateMonthSheet st d).2 =
              st ++ [createMonthSheet (getMonthSheetName d)] := by
            simp [getOrCreateMonthSheet, h0]
          rw [hS1]
          exact getSheetByName_append_of_found _ hfound
    rw [hsn3]
    refine ⟨_, rfl, rfl, ?_⟩
    have := List.length_eraseIdx src.rows (r - 3).toNat
    rw [if_pos hlen] at this
    simp only [this]
    omega

/-- Witness for C3: the theorem applied at a concrete one-row March
partition, moving its row to April (created by the move). -/
theorem claim_C3_update_move_witness :
    (doGet (fun _ => none) ⟨2026, 3, 15, 0, 0, 0⟩
        { action := some "update", row := some 3, sheetName := some "March 2026",
          timestamp := some "05/04/2026 09:30:00", vnd := some 10, eur := some 20,
          usd := some 30, category := some "Fun", note := some "x" }
        [⟨"March 2026", 1600, [⟨"01/03/2026 10:00:00", 1, 2, 3, "Food", "a"⟩]⟩]).1 =
      .ok "Moved from March 2026 to April 2026" ∧
    (∃ tgt : Sheet, getSheetByName (doGet (fun _ => none) ⟨2026, 3, 15, 0, 0, 0⟩
        { action := some "update", row := some 3, sheetName := some "March 2026",
          timestamp := some "05/04/2026 09:30:00", vnd := some 10, eur := some 20,
          usd := some 30, category := some "Fun", note := some "x" }
        [⟨"March 2026", 1600, [⟨"01/03/2026 10:00:00", 1, 2, 3, "Food", "a"⟩]⟩]).2
        "April 2026" = some tgt ∧
      tgt.rows = [⟨"05/04/2026 09:30:00", 10, 20, 30, "Fun", "x"⟩]) ∧
    (∃ src2 : Sheet, getSheetByName (doGet (fun _ => none) ⟨2026, 3, 15, 0, 0, 0⟩
        { action := some "update", row := some 3, sheetName := some "March 2026",
          timestamp := some "05/04/2026 09:30:00", vnd := some 10, eur := some 20,
          usd := some 30, category := some "Fun", note := some "x" }
        [⟨"March 2026", 1600, [⟨"01/03/2026 10:00:00", 1, 2, 3, "Food", "a"⟩]⟩]).2
        "March 2026" = some src2 ∧ src2.rows = []) := by
  have h := claim_C3_update_move (fun _ => none) ⟨2026, 3, 15, 0, 0, 0⟩
    [⟨"March 2026", 1600, [⟨"01/03/2026 10:00:00", 1, 2, 3, "Food", "a"⟩]⟩]
    3 "March 2026" "05/04/2026 09:30:00"
    ⟨"March 2026", 1600, [⟨"01/03/2026 10:00:00", 1, 2, 3, "Food", "a"⟩]⟩
    (jsDate6 2026 3 5 9 30 0) rfl (by decide) (by decide) (by decide) (by decide)
    (by decide)
    { action := some "update", row := some 3, sheetName := some "March 2026",
      timestamp := some "05/04/2026 09:30:00", vnd := some 10, eur := some 20,
      usd := some 30, category := some "Fun", note := some "x" }
    rfl rfl rfl rfl
  obtain ⟨h1, ⟨tgt, htgt, hrows⟩, ⟨src2, hsrc2, hrows2, -⟩⟩ := h
  exact ⟨h1, ⟨tgt, htgt, hrows.trans rfl⟩, ⟨src2, hsrc2, hrows2.trans rfl⟩⟩

/-- C4: an update whose new timestamp normalizes to the month the row
lives in overwrites exactly the six fields of that one row in place: the
row keeps its index and partition, every other row of that partition is
unchanged, and every other partition is unchanged. -/
theorem claim_C4_update_in_place (gp : String → Option JSDate) (now : JSDate)
    (st : SheetState) (r : ℤ) (sn ts : String) (src : Sheet) (d : JSDate)
    (hfound : getSheetByName st sn = some src) (hne : sn ≠ "")
    (h3 : 3 ≤ r) (hlen : (r - 3).toNat < src.rows.length)
    (hts : parseTs gp ts = some d) (hsame : getMonthSheetName d = sn) :
    ∀ e : GetReq, e.action = some "update" → e.row = some r → e.sheetName = some sn →
      e.timestamp = some ts →
      (doGet gp now e st).1 = .ok ("Updated row " ++ toString r) ∧
      getSheetByName (doGet gp now e st).2 sn =
        some { src with rows := src.rows.set (r - 3).toNat (newTxn e ts) } ∧
      (∀ m : String, m ≠ sn →
        getSheetByName (doGet gp now e st).2 m = getSheetByName st m) ∧
      (src.rows.set (r - 3).toNat (newTxn e ts))[(r - 3).toNat]? = some (newTxn e ts) ∧
      (∀ j : ℕ, j ≠ (r - 3).toNat →
        (src.rows.set (r - 3).toNat (newTxn e ts))[j]? = src.rows[j]?) := by
  intro e hact hrow hsnE htsE
  have hc : ¬(r = 0 ∨ r < 3 ∨ falsyOptStr (some sn) = true) := by
    simp only [falsyOptStr, beq_iff_eq]
    push_neg
    exact ⟨by omega, by omega, by simpa using hne⟩
  have hsrcname : src.name = sn := getSheetByName_name hfound
  have hstep : doGet gp now e st =
      (.ok ("Updated row " ++ toString r),
        modifySheet st sn
          (fun _ => { src with rows := src.rows.set (r - 3).toNat (newTxn e ts) })) := by
    rw [doGet_eq_updateBranch gp now e st hact]
    simp only [updateBranch, hrow, hsnE, Option.getD_some, htsE, hts, hsame]
    rw [if_neg hc]
    simp only [hfound]
    rw [if_neg (fun hcon : ¬ sn = sn => hcon rfl)]
    simp only [setRowOp, if_pos (And.intro h3 hlen)]
  have hg : ∀ x : Sheet, x.name = sn →
      (({ src with rows := src.rows.set (r - 3).toNat (newTxn e ts) } : Sheet)).name = sn :=
    fun _ _ => hsrcname
  refine ⟨by rw [hstep], ?_, ?_, ?_, ?_⟩
  · rw [hstep, getSheetByName_modifySheet_self _ sn _ hg, hfound]
    rfl
  · intro m hm
    rw [hstep]
    exact getSheetByName_modifySheet_ne _ sn m _ hm hg
  · exact List.getElem?_set_self hlen
  · intro j hj
    exact List.getElem?_set_ne (fun hcon => hj hcon.symm)

/-- Witness for C4: the theorem applied at a concrete one-row March
partition, updating the row to another March date. -/
theorem claim_C4_update_in_place_witness :
    (doGet (fun _ => none) ⟨2026, 3, 15, 0, 0, 0⟩
        { action := some "update", row := some 3, sheetName := some "March 2026",
          timestamp := some "20/03/2026 08:00:00", vnd := some 10, eur := some 20,
          usd := some 30, category := some "Fun", note := some "x" }
        [⟨"March 2026", 1600, [⟨"01/03/2026 10:00:00", 1, 2, 3, "Food", "a"⟩]⟩]).1 =
      .ok ("Updated row " ++ toString (3 : ℤ)) ∧
    getSheetByName (doGet (fun _ => none) ⟨2026, 3, 15, 0, 0, 0⟩
        { action := some "update", row := some 3, sheetName := some "March 2026",
          timestamp := some "20/03/2026 08:00:00", vnd := some 10, eur := some 20,
          usd := some 30, category := some "Fun", note := some "x" }
        [⟨"March 2026", 1600, [⟨"01/03/2026 10:00:00", 1, 2, 3, "Food", "a"⟩]⟩]).2
      "March 2026" =
      some ⟨"March 2026", 1600, [⟨"20/03/2026 08:00:00", 10, 20, 30, "Fun", "x"⟩]⟩ := by
  have h := claim_C4_update_in_place (fun _ => none) ⟨2026, 3, 15, 0, 0, 0⟩
    [⟨"March 2026", 1600, [⟨"01/03/2026 10:00:00", 1, 2, 3, "Food", "a"⟩]⟩]
    3 "March 2026" "20/03/2026 08:00:00"
    ⟨"March 2026", 1600, [⟨"01/03/2026 10:00:00", 1, 2, 3, "Food", "a"⟩]⟩
    (jsDate6 2026 2 20 8 0 0) rfl (by decide) (by decide) (by decide) (by decide)
    (by decide)
    { action := some "update", row := some 3, sheetName := some "March 2026",
      timestamp := some "20/03/2026 08:00:00", vnd := some 10, eur := some 20,
      usd := some 30, category := some "Fun", note := some "x" }
    rfl rfl rfl rfl
  exact ⟨h.1, h.2.1.trans rfl⟩

/-- C8: for an existing partition, getAllData and getTransactionHistory
both return the full transaction list: one element per data row, ordered
with the highest sheet row first, the element for data row j (sheet row
j + 3) sitting at reversed position, and each element built by mkTxnOut
(row index, partition label, canonicalized timestamp, amounts, category,
note). -/
theorem claim_C8_transactions (gp : String → Option JSDate) (s : Sheet)
    (hne : ∀ t ∈ s.rows, t.timestamp ≠ "") :
    respTxns (getAllData gp (some s)) = some (getTransactionsList gp s) ∧
    respTxns (getTransactionHistory gp (some s)) = some (getTransactionsList gp s) ∧
    (getTransactionsList gp s).length = s.rows.length ∧
    (getTransactionsList gp s).map (fun x => x.row) =
      ((List.range s.rows.length).map (fun j : ℕ => (j : ℤ) + 3)).reverse ∧
    (∀ j : ℕ, ∀ t : Txn, s.rows[j]? = some t →
      (getTransactionsList gp s)[s.rows.length - 1 - j]? =
        some (mkTxnOut gp s.name ((j : ℤ) + 3) t)) := by
  have hfil : (s.rows.enum.filter (fun p => !(p.2.timestamp == ""))) = s.rows.enum := by
    rw [List.filter_eq_self]
    intro a ha
    have hmem : a.2 ∈ s.rows := List.snd_mem_of_mem_enum ha
    simp [hne a.2 hmem]
  refine ⟨rfl, rfl, ?_, ?_, ?_⟩
  · rw [getTransactionsList, hfil]
    simp [List.enum_length]
  · rw [getTransactionsList, hfil, List.map_reverse]
    have h1 : (s.rows.enum.map
        (fun p => mkTxnOut gp s.name ((p.1 : ℤ) + 3) p.2)).map (fun x => x.row) =
        s.rows.enum.map (fun p => (p.1 : ℤ) + 3) := by
      rw [List.map_map]
      rfl
    have h2 : s.rows.enum.map (fun p => (p.1 : ℤ) + 3) =
        (List.range s.rows.length).map (fun j : ℕ => (j : ℤ) + 3) := by
      rw [← List.enum_map_fst s.rows, List.map_map]
      rfl
    rw [h1, h2]
  · intro j t hj
    have hjlt : j < s.rows.length := by
      by_contra hge
      rw [List.getElem?_eq_none (by omega)] at hj
      cases hj
    rw [getTransactionsList, hfil]
    have hlen2 : (s.rows.enum.map
        (fun p => mkTxnOut gp s.name ((p.1 : ℤ) + 3) p.2)).length = s.rows.length := by
      simp [List.enum_length]
    rw [List.getElem?_reverse (by rw [hlen2]; omega), hlen2]
    have hidx : s.rows.length - 1 - (s.rows.length - 1 - j) = j := by omega
    rw [hidx, List.getElem?_map, List.getElem?_enum, hj]
    rfl

/-- Witness for C8: the theorem applied to a concrete two-row partition:
two transactions, the newer row first, the first data row reported at
reversed position with row index 3. -/
theorem claim_C8_transactions_witness :
    (getTransactionsList (fun _ => none)
        ⟨"March 2026", 1600, [⟨"01/03/2026 10:00:00", 1, 2, 3, "Food", "a"⟩,
          ⟨"02/03/2026 10:00:00", 4, 5, 6, "Travel", "b"⟩]⟩).length = 2 ∧
    (getTransactionsList (fun _ => none)
        ⟨"March 2026", 1600, [⟨"01/03/2026 10:00:00", 1, 2, 3, "Food", "a"⟩,
          ⟨"02/03/2026 10:00:00", 4, 5, 6, "Travel", "b"⟩]⟩)[1]? =
      some (mkTxnOut (fun _ => none) "March 2026" 3
        ⟨"01/03/2026 10:00:00", 1, 2, 3, "Food", "a"⟩) := by
  have h := claim_C8_transactions (fun _ => none)
    ⟨"March 2026", 1600, [⟨"01/03/2026 10:00:00", 1, 2, 3, "Food", "a"⟩,
      ⟨"02/03/2026 10:00:00", 4, 5, 6, "Travel", "b"⟩]⟩ (by decide)
  exact ⟨h.2.2.1.trans rfl, h.2.2.2.2 0 ⟨"01/03/2026 10:00:00", 1, 2, 3, "Food", "a"⟩ rfl⟩

/-- C9: appending a valid transaction to an existing partition and then
deleting the appended row (the last data row) restores the spreadsheet
exactly, so every aggregate of that partition (the totals, the stats
block and the budget figure) equals its pre-append value. -/
theorem claim_C9_append_delete_roundtrip (gp : String → Option JSDate) (now : JSDate)
    (st : SheetState) (ts : String) (d : JSDate) (s : Sheet)
    (hts : parseTs gp ts = some d)
    (hs : getSheetByName st (getMonthSheetName d) = some s) :
    ∀ e1 : GetReq, e1.action = some "addEntry" → e1.timestamp = some ts →
    ∀ e2 : GetReq, e2.action = some "delete" →
      e2.row = some ((s.rows.length : ℤ) + 3) →
      e2.sheetName = some (getMonthSheetName d) →
      (doGet gp now e2 (doGet gp now e1 st).2).2 = st ∧
      getStatsData (getSheetByName (doGet gp now e2 (doGet gp now e1 st).2).2
          (getMonthSheetName d)) =
        getStatsData (getSheetByName st (getMonthSheetName d)) ∧
      getMonthlyTotals (getSheetByName (doGet gp now e2 (doGet gp now e1 st).2).2
          (getMonthSheetName d)) =
        getMonthlyTotals (getSheetByName st (getMonthSheetName d)) := by
  intro e1 ha1 ht1 e2 ha2 hr2 hs2
  have hname : s.name = getMonthSheetName d := getSheetByName_name hs
  have hst1 : (doGet gp now e1 st).2 =
      modifySheet st (getMonthSheetName d)
        (fun sh => { sh with rows := sh.rows ++ [newTxn e1 ts] }) := by
    rw [doGet_eq_addEntryBranch gp now e1 st ha1]
    simp only [addEntryBranch, ht1, hts, getOrCreateMonthSheet, hs]
  have hf : ∀ x : Sheet, x.name = getMonthSheetName d →
      (({ x with rows := x.rows ++ [newTxn e1 ts] } : Sheet)).name = getMonthSheetName d :=
    fun _ hx => hx
  have hlook1 : getSheetByName
      (modifySheet st (getMonthSheetName d)
        (fun sh => { sh with rows := sh.rows ++ [newTxn e1 ts] }))
      (getMonthSheetName d) = some { s with rows := s.rows ++ [newTxn e1 ts] } := by
    rw [getSheetByName_modifySheet_self st _ _ hf, hs]
    rfl
  have hc : ¬((s.rows.length : ℤ) + 3 = 0 ∨ (s.rows.length : ℤ) + 3 < 3 ∨
      falsyOptStr (some (getMonthSheetName d)) = true) := by
    simp only [falsyOptStr, beq_iff_eq]
    push_neg
    exact ⟨by omega, by omega, by simpa using getMonthSheetName_ne_empty d⟩
  have hidx : (((s.rows.length : ℤ) + 3) - 3).toNat = s.rows.length := by omega
  have herase : (s.rows ++ [newTxn e1 ts]).eraseIdx s.rows.length = s.rows := by
    rw [List.eraseIdx_append_of_length_le (le_refl _)]
    simp
  have hdel : deleteRowOp { s with rows := s.rows ++ [newTxn e1 ts] }
      ((s.rows.length : ℤ) + 3) = some s := by
    unfold deleteRowOp
    rw [if_pos]
    · simp only [hidx, herase]
    · refine ⟨by omega, ?_⟩
      rw [hidx]
      simp
  have hfinal : (doGet gp now e2 (doGet gp now e1 st).2).2 = st := by
    rw [doGet_eq_deleteBranch gp now e2 _ ha2, hr2, hs2, hst1]
    simp only [deleteBranch, if_neg hc, Option.getD_some, hlook1, hdel]
    rw [modifySheet_modifySheet st _ _ _ hf]
    exact modifySheet_self_of_found hs
  exact ⟨hfinal, by rw [hfinal], by rw [hfinal]⟩

/-- Witness for C9: the theorem applied at a concrete one-row March
partition with a same-month timestamp; the round trip restores the
spreadsheet. -/
theorem claim_C9_append_delete_roundtrip_witness :
    (doGet (fun _ => none) ⟨2026, 3, 15, 0, 0, 0⟩
        { action := some "delete", row := some 4, sheetName := some "March 2026" }
        (doGet (fun _ => none) ⟨2026, 3, 15, 0, 0, 0⟩
          { action := some "addEntry", timestamp := some "10/03/2026 12:00:00",
            vnd := some 7, eur := some 8, usd := some 9, category := some "Bills",
            note := some "w" }
          [⟨"March 2026", 1600, [⟨"01/03/2026 10:00:00", 1, 2, 3, "Food", "a"⟩]⟩]).2).2 =
      [⟨"March 2026", 1600, [⟨"01/03/2026 10:00:00", 1, 2, 3, "Food", "a"⟩]⟩] := by
  have h := claim_C9_append_delete_roundtrip (fun _ => none) ⟨2026, 3, 15, 0, 0, 0⟩
    [⟨"March 2026", 1600, [⟨"01/03/2026 10:00:00", 1, 2, 3, "Food", "a"⟩]⟩]
    "10/03/2026 12:00:00" (jsDate6 2026 2 10 12 0 0)
    ⟨"March 2026", 1600, [⟨"01/03/2026 10:00:00", 1, 2, 3, "Food", "a"⟩]⟩
    (by decide) rfl
    { action := some "addEntry", timestamp := some "10/03/2026 12:00:00",
      vnd := some 7, eur := some 8, usd := some 9, category := some "Bills",
      note := some "w" } rfl rfl
    { action := some "delete", row := some 4, sheetName := some "March 2026" }
    rfl rfl rfl
  exact h.1

end Expenses
